import Mathlib

/-!
Verification of the MCP JSON-RPC dispatch and handler logic of
`src/aider/mcp_server.py` (aider-mcp).

The embedding models:
- JSON parameter values (`JVal`) and the pydantic-style parameter parsing
  performed by `GetContextParams(**params)` and `ApplyChangesParams(**params)`;
- the external file I/O provider (`aider_io`) and the optional git provider
  (`aider_git_repo`) as abstract behaviour functions over an explicit
  filesystem `World`;
- the two method handlers `handle_get_context` / `handle_apply_changes`
  and the dispatcher `handle_mcp_request`, following the Python control
  flow branch by branch (its `try/except` blocks become explicit
  `Except`/`match` branches);
- git commit invocations as an observable event trace, so that the
  arguments passed to `commit` can be stated.

Python dict insertion (`d[k] = v`: update in place if the key is present,
else append) is modelled by `dictInsert`; Python dict iteration order is
the list order.
-/

set_option autoImplicit false

namespace McpServer

/-- JSON values, as they appear inside the `params` object of a request. -/
inductive JVal where
  | jnull
  | jbool (b : Bool)
  | jnum (n : Int)
  | jstr (s : String)
  | jlist (items : List JVal)
  | jobj (fields : List (String × JVal))

/-- Lookup in an association list keyed by strings (Python dict access). -/
def alookup {α : Type} : List (String × α) → String → Option α
  | [], _ => none
  | kv :: rest, k => if kv.fst = k then some kv.snd else alookup rest k

/-- Python dict insertion `d[k] = v`: update the value in place if the key
is already present (keeping its position), otherwise append the pair. -/
def dictInsert {α : Type} : List (String × α) → String → α → List (String × α)
  | [], k, v => [(k, v)]
  | kv :: rest, k, v =>
      if kv.fst = k then (k, v) :: rest else kv :: dictInsert rest k v

/-- `os.path.basename` on POSIX paths: the part after the last `/`
(empty when the path ends in `/`). -/
def basename (p : String) : String :=
  ⟨p.data.foldl (fun acc c => if c = '/' then [] else acc ++ [c]) []⟩

/-- The filesystem as seen through the providers: path ↦ text content. -/
structure World where
  files : List (String × String)
deriving Repr, DecidableEq

/-- Outcome of `aider_io.read_text`: content, a `FileNotFoundError`, or
some other exception carrying a description. -/
inductive ReadResult where
  | ok (content : String)
  | notFound
  | err (msg : String)
deriving Repr, DecidableEq

/-- The file I/O provider (`aider_io`): external collaborator supplied at
startup. `read_text` does not change the world; `write_text` either
returns the new world or raises (modelled as `Except.error` with the
exception's string rendering). -/
structure IOProvider where
  read_text : World → String → ReadResult
  write_text : World → String → String → Except String World

/-- The version-control provider (`aider_git_repo`): `commit message files`
either returns the new world or raises. -/
structure GitProvider where
  commit : World → String → List String → Except String World

/-- JSON-RPC request identifier: number or string. -/
inductive RpcId where
  | num (n : Int)
  | str (s : String)
deriving Repr, DecidableEq

/-- `JsonRpcRequest` pydantic model: `method` is a required string field,
`params` and `id` are optional. -/
structure JsonRpcRequest where
  jsonrpc : String := "2.0"
  method : String
  params : Option (List (String × JVal)) := none
  id : Option RpcId := none

/-- `ApplyChangesResult` pydantic model. -/
structure ApplyChangesResult where
  success : Bool
  message : Option String := none
deriving Repr, DecidableEq

/-- The structured `result` payload of a successful response: either a
`GetContextResult` (`files` mapping) or an `ApplyChangesResult`. -/
inductive RpcResult where
  | getCtx (files : List (String × Option String))
  | applyCh (r : ApplyChangesResult)
deriving Repr, DecidableEq

/-- JSON-RPC error object: integer code and message. -/
structure RpcError where
  code : Int
  message : String
deriving Repr, DecidableEq

/-- `JsonRpcResponse` pydantic model: optional `result`, optional `error`,
echoed `id`. -/
structure JsonRpcResponse where
  jsonrpc : String := "2.0"
  result : Option RpcResult := none
  error : Option RpcError := none
  id : Option RpcId := none
deriving Repr, DecidableEq

/-- Process-wide server state: the two provider handles set at startup
(`aider_io`, `aider_git_repo`), either of which may still be `None`. -/
structure ServerState where
  io_provider : Option IOProvider
  git_repo : Option GitProvider

/-- Observable calls made to the git provider during a request. -/
inductive Event where
  | commitCall (message : String) (files : List String)
deriving Repr, DecidableEq

/-- Per-item validation of `List[str]`: all items must be JSON strings. -/
def asStrings : List JVal → Option (List String)
  | [] => some []
  | JVal.jstr s :: rest => (asStrings rest).map (fun l => s :: l)
  | _ => none

/-- Pydantic validation `GetContextParams(**params)`: requires a
`file_paths` field holding a list of strings; extra fields are ignored. -/
def parseGetContext (params : List (String × JVal)) : Except String (List String) :=
  match alookup params "file_paths" with
  | some (JVal.jlist items) =>
      match asStrings items with
      | some paths => Except.ok paths
      | none => Except.error "validation error for GetContextParams: file_paths items must be strings"
  | some _ => Except.error "validation error for GetContextParams: file_paths must be a list"
  | none => Except.error "validation error for GetContextParams: file_paths field required"

/-- Pydantic validation `ApplyChangesParams(**params)`: requires string
fields `file_path` and `content`; extra fields are ignored. -/
def parseApplyChanges (params : List (String × JVal)) : Except String (String × String) :=
  match alookup params "file_path", alookup params "content" with
  | some (JVal.jstr fp), some (JVal.jstr c) => Except.ok (fp, c)
  | _, _ => Except.error "validation error for ApplyChangesParams"

/-- The value recorded for one path by the `getContext` loop body: the
file's content on a successful read, `None` on `FileNotFoundError` or any
other read exception. -/
def readValue (iop : IOProvider) (w : World) (path : String) : Option String :=
  match iop.read_text w path with
  | ReadResult.ok c => some c
  | ReadResult.notFound => none
  | ReadResult.err _ => none

/-- `handle_get_context`: parse the params (a pydantic failure re-raises to
the dispatcher, hence `Except.error`), then for each requested path record
its content or `None`, building the `file_contents` dict in iteration
order. Reads never change the world. -/
def handle_get_context (iop : IOProvider) (w : World) (params : List (String × JVal)) :
    Except String (List (String × Option String)) :=
  match parseGetContext params with
  | Except.error e => Except.error e
  | Except.ok paths =>
      Except.ok (paths.foldl (fun acc p => dictInsert acc p (readValue iop w p)) [])

/-- `handle_apply_changes`: parse the params, write the new content, then
commit when a git provider is configured. The handler's own
`except Exception` catch-all turns any exception raised in its body (a
pydantic validation failure or a failing `write_text`) into an
`ApplyChangesResult` with `success=False`; the inner `try` around
`commit` turns a commit failure into `success=True` with a cautionary
message. Returns the result payload, the final world, and the trace of
git commit invocations. -/
def handle_apply_changes (iop : IOProvider) (git : Option GitProvider) (w : World)
    (params : List (String × JVal)) : ApplyChangesResult × World × List Event :=
  match parseApplyChanges params with
  | Except.error e =>
      (⟨false, some ("Error applying changes: " ++ e)⟩, w, [])
  | Except.ok (file_path, new_content) =>
      match iop.write_text w file_path new_content with
      | Except.error e =>
          (⟨false, some ("Error applying changes: " ++ e)⟩, w, [])
      | Except.ok w1 =>
          match git with
          | some g =>
              let commit_message := "MCP: Apply changes to " ++ basename file_path
              match g.commit w1 commit_message [file_path] with
              | Except.ok w2 =>
                  (⟨true, some ("Changes applied and committed to " ++ file_path)⟩, w2,
                    [Event.commitCall commit_message [file_path]])
              | Except.error e =>
                  (⟨true, some ("Changes applied to " ++ file_path ++ " but not committed: " ++ e)⟩,
                    w1, [Event.commitCall commit_message [file_path]])
          | none =>
              (⟨true, some ("Changes applied to " ++ file_path ++ " (no git repository)")⟩, w1, [])

/-- `handle_mcp_request`: the dispatcher. Validates the envelope
(`-32600` for an empty method, `-32603` when `aider_io` is unset), routes
to the two handlers, returns `-32601` for an unknown method, and converts
any exception escaping a handler into a `-32000` error. Every branch
echoes the request's `id`. -/
def handle_mcp_request (st : ServerState) (w : World) (req : JsonRpcRequest) :
    JsonRpcResponse × World × List Event :=
  if req.method = "" then
    ({ error := some ⟨-32600, "Invalid Request"⟩, id := req.id }, w, [])
  else
    match st.io_provider with
    | none =>
        ({ error := some ⟨-32603, "Aider IO not initialized"⟩, id := req.id }, w, [])
    | some iop =>
        if req.method = "getContext" then
          match handle_get_context iop w (req.params.getD []) with
          | Except.ok files =>
              ({ result := some (RpcResult.getCtx files), id := req.id }, w, [])
          | Except.error e =>
              ({ error := some ⟨-32000, "Server error: " ++ e⟩, id := req.id }, w, [])
        else if req.method = "applyChanges" then
          let out := handle_apply_changes iop st.git_repo w (req.params.getD [])
          ({ result := some (RpcResult.applyCh out.1), id := req.id }, out.2.1, out.2.2)
        else
          ({ error := some ⟨-32601, "Method \x27" ++ req.method ++ "\x27 not found"⟩, id := req.id },
            w, [])

/-- The well-formed `params` object of an `applyChanges` request for a
given path and content. -/
def applyChangesParams (p c : String) : List (String × JVal) :=
  [("file_path", JVal.jstr p), ("content", JVal.jstr c)]

/-- The well-formed `params` object of a `getContext` request. -/
def getContextParams (paths : List String) : List (String × JVal) :=
  [("file_paths", JVal.jlist (paths.map JVal.jstr))]

/-- A world update by one write: Python-dict insertion into `files`. -/
def setFileWorld (w : World) (p c : String) : World :=
  ⟨dictInsert w.files p c⟩

/-! ## Concrete provider instances used in witnesses and counterexamples -/

/-- A well-behaved provider: reads look up `files` (raising not-found when
absent) and writes store the content and succeed. -/
def stdIOP : IOProvider :=
  ⟨fun w p =>
      match alookup w.files p with
      | some c => ReadResult.ok c
      | none => ReadResult.notFound,
   fun w p c => Except.ok (setFileWorld w p c)⟩

/-- A provider whose write always raises (e.g. permission denied). -/
def denyWriteIOP : IOProvider :=
  ⟨fun _ _ => ReadResult.notFound, fun _ _ _ => Except.error "permission denied"⟩

/-- A git provider whose commit always succeeds and leaves files as they
are. -/
def okGit : GitProvider :=
  ⟨fun w _ _ => Except.ok w⟩

/-- A git provider whose commit always raises. -/
def failGit : GitProvider :=
  ⟨fun _ _ _ => Except.error "commit failed: pre-commit hook"⟩

/-- The empty filesystem. -/
def emptyWorld : World := ⟨[]⟩

/-! ## Helper lemmas about the association-list dictionary model -/

theorem alookup_dictInsert {α : Type} (d : List (String × α)) (k : String) (v : α) :
    alookup (dictInsert d k v) k = some v := by
  induction d with
  | nil => simp [dictInsert, alookup]
  | cons kv rest ih =>
      by_cases h : kv.fst = k
      · simp [dictInsert, alookup, h]
      · simp [dictInsert, alookup, h, ih]

theorem dictInsert_of_absent {α : Type} (d : List (String × α)) (k : String) (v : α)
    (h : alookup d k = none) : dictInsert d k v = d ++ [(k, v)] := by
  induction d with
  | nil => simp [dictInsert]
  | cons kv rest ih =>
      by_cases hk : kv.fst = k
      · simp [alookup, hk] at h
      · simp [alookup, hk] at h
        simp [dictInsert, hk, ih h]

theorem alookup_append {α : Type} (d e : List (String × α)) (k : String) :
    alookup (d ++ e) k =
      match alookup d k with
      | some v => some v
      | none => alookup e k := by
  induction d with
  | nil => simp [alookup]
  | cons kv rest ih =>
      by_cases hk : kv.fst = k
      · simp [alookup, hk]
      · simp [alookup, hk, ih]

theorem foldl_dictInsert_eq {α : Type} (f : String → α) (paths : List String) :
    ∀ acc : List (String × α), paths.Nodup → (∀ p ∈ paths, alookup acc p = none) →
      paths.foldl (fun a p => dictInsert a p (f p)) acc = acc ++ paths.map (fun p => (p, f p)) := by
  induction paths with
  | nil => intro acc _ _; simp
  | cons q rest ih =>
      intro acc hnd habs
      have hq : alookup acc q = none := habs q (by simp)
      have hnd' : rest.Nodup := (List.nodup_cons.mp hnd).2
      have hqrest : q ∉ rest := (List.nodup_cons.mp hnd).1
      have habs' : ∀ p ∈ rest, alookup (acc ++ [(q, f q)]) p = none := by
        intro p hp
        rw [alookup_append]
        have : alookup acc p = none := habs p (by simp [hp])
        simp [this, alookup]
        intro hqp
        exact absurd (hqp ▸ hp) hqrest
      calc (q :: rest).foldl (fun a p => dictInsert a p (f p)) acc
      _ = rest.foldl (fun a p => dictInsert a p (f p)) (dictInsert acc q (f q)) := by simp
      _ = rest.foldl (fun a p => dictInsert a p (f p)) (acc ++ [(q, f q)]) := by
            rw [dictInsert_of_absent acc q (f q) hq]
      _ = (acc ++ [(q, f q)]) ++ rest.map (fun p => (p, f p)) := ih _ hnd' habs'
      _ = acc ++ (q :: rest).map (fun p => (p, f p)) := by simp

theorem parseGetContext_wellFormed (paths : List String) :
    parseGetContext (getContextParams paths) = Except.ok paths := by
  have h : asStrings (paths.map JVal.jstr) = some paths := by
    induction paths with
    | nil => rfl
    | cons p rest ih => simp [asStrings, ih]
  simp [parseGetContext, getContextParams, alookup, h]

theorem parseApplyChanges_wellFormed (p c : String) :
    parseApplyChanges (applyChangesParams p c) = Except.ok (p, c) := by
  rfl

/-! ## Claim theorems -/

/-- Claim C4 (confirmed): for every request processed by the dispatcher,
the response's `id` equals the request's `id`; a request without an `id`
(`id = none`, i.e. JSON null) yields a response with `id = none`. -/
theorem response_echoes_id (st : ServerState) (w : World) (req : JsonRpcRequest) :
    (handle_mcp_request st w req).1.id = req.id := by
  unfold handle_mcp_request
  repeat' split
  all_goals rfl

/-- Claim C8 (confirmed): every `JsonRpcResponse` produced by the
dispatcher carries exactly one of `result` and `error` — on every branch
(empty method, uninitialized provider, unknown method, handler success,
handler exception) one of the two fields is `none` and the other is set. -/
theorem result_error_mutually_exclusive (st : ServerState) (w : World) (req : JsonRpcRequest) :
    ((handle_mcp_request st w req).1.error = none ∧ (handle_mcp_request st w req).1.result ≠ none) ∨
    ((handle_mcp_request st w req).1.result = none ∧ (handle_mcp_request st w req).1.error ≠ none) := by
  unfold handle_mcp_request
  repeat' split
  all_goals simp

/-- Claim C5 (confirmed): a request with an empty `method` is answered
with error code `-32600` ("Invalid Request"), echoing the request's `id`
(or null when absent). A request with the `method` field missing entirely
never reaches the dispatcher: the typed request model requires `method`,
so at dispatcher level the empty string is the only such case. -/
theorem empty_method_invalid_request (st : ServerState) (w : World) (req : JsonRpcRequest)
    (hm : req.method = "") :
    (handle_mcp_request st w req).1 =
      { jsonrpc := "2.0", result := none,
        error := some ⟨-32600, "Invalid Request"⟩, id := req.id } := by
  unfold handle_mcp_request
  rw [hm]
  simp

/-- Witness for C5 at a concrete request. -/
theorem empty_method_invalid_request_witness :
    (handle_mcp_request ⟨some stdIOP, none⟩ emptyWorld
        { method := "", id := some (RpcId.num 7) }).1 =
      { jsonrpc := "2.0", result := none,
        error := some ⟨-32600, "Invalid Request"⟩, id := some (RpcId.num 7) } :=
  empty_method_invalid_request ⟨some stdIOP, none⟩ emptyWorld
    { method := "", id := some (RpcId.num 7) } rfl

/-- Claim C2 (corrected) — counterexample to the claim as stated: with the
I/O provider unset and an empty `method`, the response carries error code
`-32600`, not `-32603`: the empty-method check runs before the
initialization check. -/
theorem unset_provider_empty_method_cex :
    (handle_mcp_request ⟨none, none⟩ emptyWorld { method := "" }).1.error.map RpcError.code
        = some (-32600) ∧
    (handle_mcp_request ⟨none, none⟩ emptyWorld { method := "" }).1.error.map RpcError.code
        ≠ some (-32603) := by
  refine ⟨rfl, ?_⟩
  have h : (handle_mcp_request ⟨none, none⟩ emptyWorld { method := "" }).1.error.map RpcError.code
      = some (-32600) := rfl
  rw [h]
  decide

/-- Claim C2 (corrected, amended): for every request with a NON-EMPTY
method received while the I/O provider is unset, the response carries
error code `-32603` ("Aider IO not initialized"), echoing the `id`. -/
theorem unset_provider_internal_error (st : ServerState) (w : World) (req : JsonRpcRequest)
    (hpr : st.io_provider = none) (hm : req.method ≠ "") :
    (handle_mcp_request st w req).1 =
      { jsonrpc := "2.0", result := none,
        error := some ⟨-32603, "Aider IO not initialized"⟩, id := req.id } := by
  unfold handle_mcp_request
  rw [hpr]
  simp [hm]

/-- Witness for the amended C2 at a concrete request. -/
theorem unset_provider_internal_error_witness :
    (handle_mcp_request ⟨none, none⟩ emptyWorld
        { method := "getContext", id := some (RpcId.str "r1") }).1 =
      { jsonrpc := "2.0", result := none,
        error := some ⟨-32603, "Aider IO not initialized"⟩, id := some (RpcId.str "r1") } :=
  unset_provider_internal_error ⟨none, none⟩ emptyWorld
    { method := "getContext", id := some (RpcId.str "r1") } rfl (by decide)

/-- Claim C1 (corrected) — counterexample to the claim as stated: an
`applyChanges` request whose write raises yields a JSON-RPC response with
a `result` payload (`ApplyChangesResult` with `success=false`) and
`error = none`, NOT a protocol-level `-32000` error: the handler's own
`except Exception` catch-all intercepts the write failure before it can
reach the dispatcher's top-level catch. -/
theorem applyChanges_write_failure_cex :
    (handle_mcp_request ⟨some denyWriteIOP, none⟩ emptyWorld
        { method := "applyChanges", params := some (applyChangesParams "a.txt" "new"),
          id := some (RpcId.num 1) }).1 =
      { jsonrpc := "2.0",
        result := some (RpcResult.applyCh ⟨false, some "Error applying changes: permission denied"⟩),
        error := none, id := some (RpcId.num 1) } := rfl

/-- Claim C1 (corrected, amended): a failing write in `applyChanges` does
NOT propagate to the dispatcher; it is caught by the handler's own
catch-all and returned as an `ApplyChangesResult` payload with
`success=false` and message `"Error applying changes: <description>"`,
inside a successful JSON-RPC response (`error = none`). -/
theorem applyChanges_write_failure_caught (st : ServerState) (w : World) (req : JsonRpcRequest)
    (iop : IOProvider) (fp c e : String)
    (hpr : st.io_provider = some iop)
    (hm : req.method = "applyChanges")
    (hps : parseApplyChanges (req.params.getD []) = Except.ok (fp, c))
    (hw : iop.write_text w fp c = Except.error e) :
    (handle_mcp_request st w req).1 =
      { jsonrpc := "2.0",
        result := some (RpcResult.applyCh ⟨false, some ("Error applying changes: " ++ e)⟩),
        error := none, id := req.id } := by
  unfold handle_mcp_request
  rw [hpr, hm]
  simp [handle_apply_changes, hps, hw]

/-- Witness for the amended C1 at a concrete request. -/
theorem applyChanges_write_failure_caught_witness :
    (handle_mcp_request ⟨some denyWriteIOP, none⟩ emptyWorld
        { method := "applyChanges", params := some (applyChangesParams "b.txt" "x") }).1 =
      { jsonrpc := "2.0",
        result := some (RpcResult.applyCh ⟨false, some ("Error applying changes: " ++ "permission denied")⟩),
        error := none, id := none } :=
  applyChanges_write_failure_caught ⟨some denyWriteIOP, none⟩ emptyWorld
    { method := "applyChanges", params := some (applyChangesParams "b.txt" "x") }
    denyWriteIOP "b.txt" "x" "permission denied" rfl rfl rfl rfl

/-- Claim C3 (corrected) — counterexample to the claim as stated: a
`getContext` request listing the same path twice (N = 2) produces a
`files` mapping with a single key, because the Python dict collapses
duplicate keys; "exactly N keys" fails. -/
theorem getContext_duplicate_paths_cex :
    handle_get_context stdIOP emptyWorld (getContextParams ["a.txt", "a.txt"]) =
      Except.ok [("a.txt", (none : Option String))] ∧
    [("a.txt", (none : Option String))].length ≠ (["a.txt", "a.txt"] : List String).length := by
  exact ⟨rfl, by decide⟩

/-- Claim C3 (corrected, amended): for a `getContext` request with N
pairwise-distinct file paths, `result.files` is exactly the list of
`(path, value)` pairs in the input's iteration order — N keys, each
requested path exactly once, where the value is the file's exact content
on a successful read and null when the read raises (not-found or any
other error). -/
theorem getContext_complete (iop : IOProvider) (w : World) (paths : List String)
    (hnd : paths.Nodup) :
    handle_get_context iop w (getContextParams paths) =
      Except.ok (paths.map (fun p => (p, readValue iop w p))) := by
  unfold handle_get_context
  rw [parseGetContext_wellFormed]
  have h := foldl_dictInsert_eq (readValue iop w) paths [] hnd (fun p _ => rfl)
  simp [h]

/-- Witness for the amended C3: two distinct paths, one readable and one
missing. -/
theorem getContext_complete_witness :
    handle_get_context stdIOP ⟨[("a.txt", "alpha")]⟩ (getContextParams ["a.txt", "b.txt"]) =
      Except.ok [("a.txt", some "alpha"), ("b.txt", none)] :=
  (getContext_complete stdIOP ⟨[("a.txt", "alpha")]⟩ ["a.txt", "b.txt"] (by decide)).trans rfl

/-- Claim C6 (confirmed): on an `applyChanges` request where the write
succeeds, a git provider is configured and its commit succeeds, the commit
is invoked with exactly the one changed path as its file list and the
message `"MCP: Apply changes to <basename-of-path>"` (which contains the
path's base filename), and the result is `success=true` with the message
confirming the commit. -/
theorem applyChanges_commit_success (iop : IOProvider) (g : GitProvider) (w w1 w2 : World)
    (p c : String)
    (hw : iop.write_text w p c = Except.ok w1)
    (hc : g.commit w1 ("MCP: Apply changes to " ++ basename p) [p] = Except.ok w2) :
    handle_apply_changes iop (some g) w (applyChangesParams p c) =
      (⟨true, some ("Changes applied and committed to " ++ p)⟩, w2,
        [Event.commitCall ("MCP: Apply changes to " ++ basename p) [p]]) := by
  simp [handle_apply_changes, parseApplyChanges_wellFormed, hw, hc]

/-- Witness for C6 at a concrete request with a nested path. -/
theorem applyChanges_commit_success_witness :
    handle_apply_changes stdIOP (some okGit) emptyWorld (applyChangesParams "dir/a.txt" "hi") =
      (⟨true, some ("Changes applied and committed to " ++ "dir/a.txt")⟩,
        ⟨[("dir/a.txt", "hi")]⟩,
        [Event.commitCall ("MCP: Apply changes to " ++ basename "dir/a.txt") ["dir/a.txt"]]) :=
  applyChanges_commit_success stdIOP okGit emptyWorld ⟨[("dir/a.txt", "hi")]⟩
    ⟨[("dir/a.txt", "hi")]⟩ "dir/a.txt" "hi" rfl rfl

/-- Claim C7 (confirmed): on an `applyChanges` request where the write
succeeds but the configured git provider's commit raises, the result is
`success=true`, the message states the file was applied but not committed
and includes the failure description, and the target file still holds the
newly written content — the write is not rolled back (the final world is
the post-write world `w1`). -/
theorem applyChanges_commit_failure (iop : IOProvider) (g : GitProvider) (w w1 : World)
    (p c e : String)
    (hw : iop.write_text w p c = Except.ok w1)
    (hc : g.commit w1 ("MCP: Apply changes to " ++ basename p) [p] = Except.error e)
    (hcont : alookup w1.files p = some c) :
    handle_apply_changes iop (some g) w (applyChangesParams p c) =
      (⟨true, some ("Changes applied to " ++ p ++ " but not committed: " ++ e)⟩, w1,
        [Event.commitCall ("MCP: Apply changes to " ++ basename p) [p]]) ∧
    alookup (handle_apply_changes iop (some g) w (applyChangesParams p c)).2.1.files p = some c := by
  have h : handle_apply_changes iop (some g) w (applyChangesParams p c) =
      (⟨true, some ("Changes applied to " ++ p ++ " but not committed: " ++ e)⟩, w1,
        [Event.commitCall ("MCP: Apply changes to " ++ basename p) [p]]) := by
    simp [handle_apply_changes, parseApplyChanges_wellFormed, hw, hc]
  exact ⟨h, by rw [h]; exact hcont⟩

/-- Witness for C7: the commit raises, the file keeps the new content. -/
theorem applyChanges_commit_failure_witness :
    handle_apply_changes stdIOP (some failGit) ⟨[("a.txt", "old")]⟩ (applyChangesParams "a.txt" "new") =
      (⟨true, some ("Changes applied to " ++ "a.txt" ++ " but not committed: "
          ++ "commit failed: pre-commit hook")⟩,
        ⟨[("a.txt", "new")]⟩,
        [Event.commitCall ("MCP: Apply changes to " ++ basename "a.txt") ["a.txt"]]) ∧
    alookup (handle_apply_changes stdIOP (some failGit) ⟨[("a.txt", "old")]⟩
        (applyChangesParams "a.txt" "new")).2.1.files "a.txt" = some "new" :=
  applyChanges_commit_failure stdIOP failGit ⟨[("a.txt", "old")]⟩ ⟨[("a.txt", "new")]⟩
    "a.txt" "new" "commit failed: pre-commit hook" rfl rfl rfl

/-- Claim C9 (confirmed): when the provider's write stores the content
(and a configured git provider's successful commit leaves file contents
unchanged), calling `applyChanges` twice with the identical path and
content leaves the target file in the same final state as calling it
once: the file contains exactly that content after either call. -/
theorem applyChanges_idempotent (iop : IOProvider) (git : Option GitProvider) (w : World)
    (p c : String)
    (hw : ∀ w0, iop.write_text w0 p c = Except.ok (setFileWorld w0 p c))
    (hg : ∀ g, git = some g → ∀ w0 m fs w1, g.commit w0 m fs = Except.ok w1 → w1.files = w0.files) :
    alookup ((handle_apply_changes iop git w (applyChangesParams p c)).2.1).files p = some c ∧
    alookup ((handle_apply_changes iop git
        (handle_apply_changes iop git w (applyChangesParams p c)).2.1
        (applyChangesParams p c)).2.1).files p = some c := by
  have key : ∀ w0 : World,
      alookup ((handle_apply_changes iop git w0 (applyChangesParams p c)).2.1).files p = some c := by
    intro w0
    cases git with
    | none =>
        simp [handle_apply_changes, parseApplyChanges_wellFormed, hw w0, setFileWorld,
          alookup_dictInsert]
    | some g =>
        cases hcall : g.commit (setFileWorld w0 p c) ("MCP: Apply changes to " ++ basename p) [p] with
        | ok w2 =>
            have hfiles := hg g rfl _ _ _ _ hcall
            simp only [handle_apply_changes, parseApplyChanges_wellFormed, hw w0, hcall]
            rw [hfiles]
            simp [setFileWorld, alookup_dictInsert]
        | error e =>
            simp only [handle_apply_changes, parseApplyChanges_wellFormed, hw w0, hcall]
            simp [setFileWorld, alookup_dictInsert]
  exact ⟨key w, key _⟩

/-- Witness for C9 with the standard provider and no git repository. -/
theorem applyChanges_idempotent_witness :
    alookup ((handle_apply_changes stdIOP none emptyWorld (applyChangesParams "a.txt" "x")).2.1).files
        "a.txt" = some "x" ∧
    alookup ((handle_apply_changes stdIOP none
        (handle_apply_changes stdIOP none emptyWorld (applyChangesParams "a.txt" "x")).2.1
        (applyChangesParams "a.txt" "x")).2.1).files "a.txt" = some "x" :=
  applyChanges_idempotent stdIOP none emptyWorld "a.txt" "x" (fun _ => rfl)
    (fun _ h => nomatch h)

/-- Claim C10 (confirmed): the `applyChanges` handler never propagates an
exception to the dispatcher — for every request routed to it the JSON-RPC
response carries a `result` field holding the handler's
`ApplyChangesResult` and no `error` field; and when the handler's body
fails (unparseable parameters, or a write that raises) the payload is
`success=false` with a message beginning `"Error applying changes:"`. -/
theorem applyChanges_never_propagates (st : ServerState) (w : World) (req : JsonRpcRequest)
    (iop : IOProvider)
    (hpr : st.io_provider = some iop)
    (hm : req.method = "applyChanges") :
    ((handle_mcp_request st w req).1.error = none ∧
     (handle_mcp_request st w req).1.result =
       some (RpcResult.applyCh (handle_apply_changes iop st.git_repo w (req.params.getD [])).1)) ∧
    (∀ e, parseApplyChanges (req.params.getD []) = Except.error e →
       (handle_apply_changes iop st.git_repo w (req.params.getD [])).1 =
         ⟨false, some ("Error applying changes: " ++ e)⟩) ∧
    (∀ fp c e, parseApplyChanges (req.params.getD []) = Except.ok (fp, c) →
       iop.write_text w fp c = Except.error e →
       (handle_apply_changes iop st.git_repo w (req.params.getD [])).1 =
         ⟨false, some ("Error applying changes: " ++ e)⟩) := by
  refine ⟨?_, ?_, ?_⟩
  · unfold handle_mcp_request
    rw [hpr, hm]
    simp
  · intro e he
    simp [handle_apply_changes, he]
  · intro fp c e hok hwe
    simp [handle_apply_changes, hok, hwe]

/-- Witness for C10: a request with absent params (pydantic validation
fails) still yields a `result` payload and no protocol error. -/
theorem applyChanges_never_propagates_witness :
    (handle_mcp_request ⟨some stdIOP, none⟩ emptyWorld
        { method := "applyChanges", params := none }).1.error = none ∧
    (handle_mcp_request ⟨some stdIOP, none⟩ emptyWorld
        { method := "applyChanges", params := none }).1.result =
      some (RpcResult.applyCh (handle_apply_changes stdIOP none emptyWorld []).1) :=
  (applyChanges_never_propagates ⟨some stdIOP, none⟩ emptyWorld
    { method := "applyChanges", params := none } stdIOP rfl rfl).1

end McpServer
